import Mathlib

/-!
Verification of the workers-ai-golang chat adapter: the response-format
detector/decoder (`ChatResponse.UnmarshalJSON`, its accessors `GetContent`,
`GetReasoningContent`, `GetToolCalls`) and the polymorphic request-message
encoder/decoder (`ChatCompletionRequest.UnmarshalJSON`).

The Go code decodes JSON with `encoding/json`; we embed the payloads as a
JSON value tree and translate each decode step to a function over that tree,
mirroring the stdlib's semantics for the struct shapes involved:
a JSON `null` sets a pointer field to `none` and leaves a non-pointer
scalar field at its zero value; an absent key leaves the zero value;
a wrong-typed value for a field is a decode error; unknown keys are
ignored; a repeated key keeps the last occurrence.  Byte-level details the
tree does not carry (whitespace inside a `json.RawMessage` fragment, float
literals, case-insensitive key matching) are outside the model: raw
fragments are represented by their JSON value and `string(raw)` by the
canonical rendering below, numbers are modelled as integers, and key lookup
is exact.
-/

namespace WorkersAI

/-- JSON value trees.  Objects keep their fields in written order and may
repeat a name; numbers are modelled as integers. -/
inductive Json where
  | null
  | bool (b : Bool)
  | num (n : Int)
  | str (s : String)
  | arr (elems : List Json)
  | obj (fields : List (String × Json))
deriving Inhabited

namespace Json

/-- Lookup in a field list; the last occurrence of a repeated name wins,
as in `encoding/json` where each occurrence overwrites the struct field. -/
def getLast : List (String × Json) → String → Option Json
  | [], _ => none
  | (k, v) :: rest, key =>
    match getLast rest key with
    | some r => some r
    | none => if k = key then some v else none

/-- Field lookup on a value: `none` on anything that is not an object. -/
def getField : Json → String → Option Json
  | .obj fs, key => getLast fs key
  | _, _ => none

/-- Does the object carry this key at all (even with a JSON `null` value)? -/
def hasKey (j : Json) (key : String) : Bool :=
  (getField j key).isSome

/-- String escaping for the renderer (the two JSON-mandatory escapes). -/
def escapeChar (c : Char) : String :=
  if c = '"' then "\\\"" else if c = '\\' then "\\\\" else String.singleton c

/-- Render a string as a JSON string literal. -/
def renderStr (s : String) : String :=
  "\"" ++ s.data.foldl (fun acc c => acc ++ escapeChar c) "" ++ "\""

mutual

/-- Compact rendering of a value, the model of the bytes held by a
`json.RawMessage` for that value. -/
def render : Json → String
  | .null => "null"
  | .bool b => if b then "true" else "false"
  | .num n => toString n
  | .str s => renderStr s
  | .arr xs => "[" ++ renderElems xs ++ "]"
  | .obj fs => "\x7b" ++ renderFields fs ++ "\x7d"

def renderElems : List Json → String
  | [] => ""
  | [x] => render x
  | x :: y :: xs => render x ++ "," ++ renderElems (y :: xs)

def renderFields : List (String × Json) → String
  | [] => ""
  | [(k, v)] => renderStr k ++ ":" ++ render v
  | (k, v) :: f :: fs => renderStr k ++ ":" ++ render v ++ "," ++ renderFields (f :: fs)

end

end Json

/-! ## A JSON parser over character lists

`ChatResponse.UnmarshalJSON` receives raw bytes; its first step can fail on
input that is not valid JSON.  To state that claim we parse characters into
the tree above.  The parser accepts integer numerals and the simple string
escapes (no `\u`), which covers the documents of this development; it is
used only through `decodeBytes`. -/

def isJsonWs (c : Char) : Bool :=
  c = ' ' || c = '\t' || c = '\n' || c = '\r'

def skipWs : List Char → List Char
  | [] => []
  | c :: rest => if isJsonWs c then skipWs rest else c :: rest

def unescape (c : Char) : Option Char :=
  if c = '"' then some '"'
  else if c = '\\' then some '\\'
  else if c = '/' then some '/'
  else if c = 'n' then some '\n'
  else if c = 't' then some '\t'
  else if c = 'r' then some '\r'
  else if c = 'b' then some (Char.ofNat 8)
  else if c = 'f' then some (Char.ofNat 12)
  else none

/-- Body of a string literal, after the opening quote. -/
def parseStringBody : List Char → Option (String × List Char)
  | [] => none
  | '"' :: rest => some ("", rest)
  | '\\' :: e :: rest =>
    match unescape e, parseStringBody rest with
    | some c, some (s, r) => some (String.singleton c ++ s, r)
    | _, _ => none
  | c :: rest =>
    match parseStringBody rest with
    | some (s, r) => some (String.singleton c ++ s, r)
    | none => none

def parseDigitsAux : List Char → Nat → Nat × List Char
  | [], acc => (acc, [])
  | c :: rest, acc =>
    if c.isDigit then parseDigitsAux rest (acc * 10 + (c.toNat - 48))
    else (acc, c :: rest)

/-- At least one digit, then the longest digit run. -/
def parseNat : List Char → Option (Nat × List Char)
  | [] => none
  | c :: rest =>
    if c.isDigit then some (parseDigitsAux rest (c.toNat - 48))
    else none

mutual

def parseValue : Nat → List Char → Option (Json × List Char)
  | 0, _ => none
  | Nat.succ fuel, cs =>
    match skipWs cs with
    | 'n' :: 'u' :: 'l' :: 'l' :: rest => some (.null, rest)
    | 't' :: 'r' :: 'u' :: 'e' :: rest => some (.bool true, rest)
    | 'f' :: 'a' :: 'l' :: 's' :: 'e' :: rest => some (.bool false, rest)
    | '"' :: rest =>
      match parseStringBody rest with
      | some (s, r) => some (.str s, r)
      | none => none
    | '[' :: rest =>
      match parseElems fuel rest with
      | some (xs, r) => some (.arr xs, r)
      | none => none
    | '\x7b' :: rest =>
      match parseMembers fuel rest with
      | some (fs, r) => some (.obj fs, r)
      | none => none
    | '-' :: rest =>
      match parseNat rest with
      | some (n, r) => some (.num (-(n : Int)), r)
      | none => none
    | c :: rest =>
      if c.isDigit then
        match parseNat (c :: rest) with
        | some (n, r) => some (.num (n : Int), r)
        | none => none
      else none
    | [] => none

def parseElems : Nat → List Char → Option (List Json × List Char)
  | 0, _ => none
  | Nat.succ fuel, cs =>
    match skipWs cs with
    | ']' :: rest => some ([], rest)
    | cs' =>
      match parseValue fuel cs' with
      | some (v, r) => parseElemsTail fuel v r
      | none => none

def parseElemsTail : Nat → Json → List Char → Option (List Json × List Char)
  | 0, _, _ => none
  | Nat.succ fuel, v, cs =>
    match skipWs cs with
    | ']' :: rest => some ([v], rest)
    | ',' :: rest =>
      match parseValue fuel rest with
      | some (w, r) =>
        match parseElemsTail fuel w r with
        | some (ws, r') => some (v :: ws, r')
        | none => none
      | none => none
    | _ => none

def parseMembers : Nat → List Char → Option (List (String × Json) × List Char)
  | 0, _ => none
  | Nat.succ fuel, cs =>
    match skipWs cs with
    | '\x7d' :: rest => some ([], rest)
    | cs' =>
      match parseMember fuel cs' with
      | some (kv, r) => parseMembersTail fuel kv r
      | none => none

def parseMember : Nat → List Char → Option ((String × Json) × List Char)
  | 0, _ => none
  | Nat.succ fuel, cs =>
    match skipWs cs with
    | '"' :: rest =>
      match parseStringBody rest with
      | some (k, r) =>
        match skipWs r with
        | ':' :: r' =>
          match parseValue fuel r' with
          | some (v, r'') => some ((k, v), r'')
          | none => none
        | _ => none
      | none => none
    | _ => none

def parseMembersTail : Nat → (String × Json) → List Char →
    Option (List (String × Json) × List Char)
  | 0, _, _ => none
  | Nat.succ fuel, kv, cs =>
    match skipWs cs with
    | '\x7d' :: rest => some ([kv], rest)
    | ',' :: rest =>
      match parseMember fuel rest with
      | some (kv', r) =>
        match parseMembersTail fuel kv' r with
        | some (kvs, r') => some (kv :: kvs, r')
        | none => none
      | none => none
    | _ => none

end

/-- Parse a whole document: one value and then only whitespace. -/
def parseJson (cs : List Char) : Option Json :=
  match parseValue (cs.length + 1) cs with
  | some (v, rest) => if skipWs rest = [] then some v else none
  | none => none

/-! ## The data model (types.go)

Lean mirrors of the Go structs.  `default` is the Go zero value throughout
(empty string, 0, nil slice/pointer). -/

/-- `Usage` token counts. -/
structure Usage where
  promptTokens : Int
  completionTokens : Int
  totalTokens : Int
deriving DecidableEq, Inhabited

/-- `FunctionToCall`: name plus string-encoded arguments. -/
structure FunctionToCall where
  name : String
  arguments : String
deriving DecidableEq, Inhabited

/-- `ToolCall`: the standard (OpenAI-shaped) tool call. -/
structure ToolCall where
  id : String
  type : String
  function : FunctionToCall
deriving DecidableEq, Inhabited

/-- `ResponseMessage`: the assistant message inside a `Choice`.
`content` is a `*string` in Go (`none` models a nil pointer);
`tool_calls` and `reasoning_content` carry `omitempty`. -/
structure ResponseMessage where
  role : String
  content : Option String
  toolCalls : List ToolCall
  reasoningContent : String
deriving DecidableEq, Inhabited

/-- `Choice`. -/
structure Choice where
  index : Int
  message : ResponseMessage
  finishReason : String
deriving DecidableEq, Inhabited

/-- `ChatCompletionResponse`: the standard OpenAI-compatible result. -/
structure ChatCompletionResponse where
  id : String
  object : String
  created : Int
  model : String
  choices : List Choice
  usage : Usage
deriving DecidableEq, Inhabited

/-- `LegacyToolCall`: `arguments` is a `json.RawMessage`, modelled by the
JSON value it holds; `none` models a nil fragment (key absent). -/
structure LegacyToolCall where
  name : String
  arguments : Option Json
deriving Inhabited

/-- `LegacyResponse`.  `toolCalls = none` models a nil slice (key absent
or JSON null), distinguished from `some []` as in Go. -/
structure LegacyResponse where
  response : String
  toolCalls : Option (List LegacyToolCall)
  usage : Usage
deriving Inhabited

/-- `ChatResponse`: the decode target, with the format flag and both
payloads. -/
structure ChatResponse where
  success : Bool
  errors : List String
  messages : List Json
  resultRaw : Option Json
  isLegacyResult : Bool
  chatCompletionResponse : ChatCompletionResponse
  legacyResponse : LegacyResponse
deriving Inhabited

/-! ## Field decoding, mirroring `encoding/json` on the struct shapes used

Each helper returns `Except Unit`; the caller tags the error with the spot
in `UnmarshalJSON` that surfaced it. -/

/-- Decode the elements of a JSON array in order, stopping at the first
error, as the `encoding/json` array loop surfaces it. -/
def mapME (f : α → Except ε β) : List α → Except ε (List β)
  | [] => .ok []
  | x :: xs => do
    let y ← f x
    let ys ← mapME f xs
    pure (y :: ys)

/-- A Go `string` field: absent and JSON null leave the zero value. -/
def decStringField (j : Json) (key : String) : Except Unit String :=
  match j.getField key with
  | none => .ok ""
  | some .null => .ok ""
  | some (.str s) => .ok s
  | some _ => .error ()

/-- A Go `*string` field: JSON null (and absence) leave a nil pointer. -/
def decOptStringField (j : Json) (key : String) : Except Unit (Option String) :=
  match j.getField key with
  | none => .ok none
  | some .null => .ok none
  | some (.str s) => .ok (some s)
  | some _ => .error ()

/-- A Go `int`/`int64` field. -/
def decIntField (j : Json) (key : String) : Except Unit Int :=
  match j.getField key with
  | none => .ok 0
  | some .null => .ok 0
  | some (.num n) => .ok n
  | some _ => .error ()

/-- A Go `bool` field. -/
def decBoolField (j : Json) (key : String) : Except Unit Bool :=
  match j.getField key with
  | none => .ok false
  | some .null => .ok false
  | some (.bool b) => .ok b
  | some _ => .error ()

def decStringElem : Json → Except Unit String
  | .str s => .ok s
  | .null => .ok ""
  | _ => .error ()

/-- A Go `[]string` field. -/
def decStringListField (j : Json) (key : String) : Except Unit (List String) :=
  match j.getField key with
  | none => .ok []
  | some .null => .ok []
  | some (.arr xs) => mapME decStringElem xs
  | some _ => .error ()

/-- A Go `[]interface\x7b\x7d` field: any array of values. -/
def decodeMessagesField (j : Json) (key : String) : Except Unit (List Json) :=
  match j.getField key with
  | none => .ok []
  | some .null => .ok []
  | some (.arr xs) => .ok xs
  | some _ => .error ()

/-- Decode a `Usage` value (a struct: null is a no-op, non-object fails). -/
def decodeUsage (v : Json) : Except Unit Usage :=
  match v with
  | .null => .ok default
  | .obj _ => do
    let p ← decIntField v "prompt_tokens"
    let c ← decIntField v "completion_tokens"
    let t ← decIntField v "total_tokens"
    pure ⟨p, c, t⟩
  | _ => .error ()

def decodeUsageField (j : Json) (key : String) : Except Unit Usage :=
  match j.getField key with
  | none => .ok default
  | some v => decodeUsage v

def decodeFunctionToCall (v : Json) : Except Unit FunctionToCall :=
  match v with
  | .null => .ok default
  | .obj _ => do
    let n ← decStringField v "name"
    let a ← decStringField v "arguments"
    pure ⟨n, a⟩
  | _ => .error ()

def decodeToolCall (v : Json) : Except Unit ToolCall :=
  match v with
  | .null => .ok default
  | .obj _ => do
    let i ← decStringField v "id"
    let t ← decStringField v "type"
    let f ← match v.getField "function" with
      | none => pure (default : FunctionToCall)
      | some fv => decodeFunctionToCall fv
    pure ⟨i, t, f⟩
  | _ => .error ()

/-- A Go `[]ToolCall` field. -/
def decodeToolCallListField (j : Json) (key : String) : Except Unit (List ToolCall) :=
  match j.getField key with
  | none => .ok []
  | some .null => .ok []
  | some (.arr xs) => mapME decodeToolCall xs
  | some _ => .error ()

def decodeResponseMessage (v : Json) : Except Unit ResponseMessage :=
  match v with
  | .null => .ok default
  | .obj _ => do
    let r ← decStringField v "role"
    let c ← decOptStringField v "content"
    let tcs ← decodeToolCallListField v "tool_calls"
    let rc ← decStringField v "reasoning_content"
    pure ⟨r, c, tcs, rc⟩
  | _ => .error ()

def decodeChoice (v : Json) : Except Unit Choice :=
  match v with
  | .null => .ok default
  | .obj _ => do
    let i ← decIntField v "index"
    let m ← match v.getField "message" with
      | none => pure (default : ResponseMessage)
      | some mv => decodeResponseMessage mv
    let fr ← decStringField v "finish_reason"
    pure ⟨i, m, fr⟩
  | _ => .error ()

def decodeChoiceListField (j : Json) (key : String) : Except Unit (List Choice) :=
  match j.getField key with
  | none => .ok []
  | some .null => .ok []
  | some (.arr xs) => mapME decodeChoice xs
  | some _ => .error ()

/-- Decode `result` directly into the Standard payload shape. -/
def decodeChatCompletionResponse (v : Json) : Except Unit ChatCompletionResponse :=
  match v with
  | .null => .ok default
  | .obj _ => do
    let i ← decStringField v "id"
    let o ← decStringField v "object"
    let cr ← decIntField v "created"
    let m ← decStringField v "model"
    let cs ← decodeChoiceListField v "choices"
    let u ← decodeUsageField v "usage"
    pure ⟨i, o, cr, m, cs, u⟩
  | _ => .error ()

def decodeLegacyToolCall (v : Json) : Except Unit LegacyToolCall :=
  match v with
  | .null => .ok default
  | .obj _ => do
    let n ← decStringField v "name"
    pure ⟨n, v.getField "arguments"⟩
  | _ => .error ()

def decodeLegacyToolCallsField (j : Json) (key : String) :
    Except Unit (Option (List LegacyToolCall)) :=
  match j.getField key with
  | none => .ok none
  | some .null => .ok none
  | some (.arr xs) => (mapME decodeLegacyToolCall xs).map some
  | some _ => .error ()

/-- Modelled from the spec: `LegacyResponse` carries a custom
`UnmarshalJSON` that normalizes the `response` field to text — a wire
string is kept as is, any other wire value (an object, or explicitly JSON
null, which becomes the literal text "null") is kept as its raw JSON
serialization.  The repository's tests pin this behaviour
(`TestLegacyResponse_UnmarshalJSON`) but the method body is not among the
provided sources; the remaining fields follow the `LegacyResponse` struct
declaration. -/
def decodeLegacyResponse (v : Json) : Except Unit LegacyResponse :=
  match v with
  | .null => .ok default
  | .obj _ => do
    let resp := match v.getField "response" with
      | none => ""
      | some (.str s) => s
      | some w => Json.render w
    let tcs ← decodeLegacyToolCallsField v "tool_calls"
    let u ← decodeUsageField v "usage"
    pure ⟨resp, tcs, u⟩
  | _ => .error ()

/-! ## Format detection and `ChatResponse.UnmarshalJSON` -/

/-- The `choices` probe: a `*json.RawMessage` field, nil exactly when the
key is absent or its value is JSON null. -/
def probeChoices (res : Json) : Option Json :=
  match res.getField "choices" with
  | some .null => none
  | x => x

/-- The id probed from one `tool_calls` element: a missing, null or
wrong-typed `id` (or a non-object element) leaves the zero string. -/
def probeElemId (e : Json) : String :=
  match e.getField "id" with
  | some (.str s) => s
  | _ => ""

/-- The `tool_calls` probe: a `*[]struct\x7bID string\x7d` field.  `none` when
absent or null; a wrong-typed value allocates the pointer but leaves the
slice empty; array elements are probed for `id`, errors ignored. -/
def probeToolCalls (res : Json) : Option (List String) :=
  match res.getField "tool_calls" with
  | none => none
  | some .null => none
  | some (.arr xs) => some (xs.map probeElemId)
  | some _ => some []

/-- The three response formats. -/
inductive RFormat where
  | standard
  | hybrid
  | legacy
deriving DecidableEq

/-- The branch taken by `ChatResponse.UnmarshalJSON` on a probed `result`:
Case 1 when the choices probe is non-nil; Case 2 when the tool-calls probe
holds a non-empty list whose first id is non-empty; Case 3 otherwise. -/
def classifyResult (res : Json) : RFormat :=
  if (probeChoices res).isSome then .standard
  else
    match probeToolCalls res with
    | some (id0 :: _) => if id0 ≠ "" then .hybrid else .legacy
    | _ => .legacy

/-- The anonymous struct decoded in the hybrid branch. -/
def decodeHybridBody (res : Json) : Except Unit (List ToolCall × Usage) :=
  match res with
  | .null => .ok ([], default)
  | .obj _ => do
    let tcs ← decodeToolCallListField res "tool_calls"
    let u ← decodeUsageField res "usage"
    pure (tcs, u)
  | _ => .error ()

/-- The `TempChatResponse` shell: top-level fields plus the raw `result`. -/
structure ShellFields where
  success : Bool
  errors : List String
  messages : List Json
  resultRaw : Option Json

def decodeShell (top : Json) : Except Unit ShellFields :=
  match top with
  | .null => .ok ⟨false, [], [], none⟩
  | .obj _ => do
    let s ← decBoolField top "success"
    let e ← decStringListField top "errors"
    let m ← decodeMessagesField top "messages"
    pure ⟨s, e, m, top.getField "result"⟩
  | _ => .error ()

/-- Errors of `ChatResponse.UnmarshalJSON`, one constructor per return
site: the shell unmarshal (covering invalid top-level JSON), and each of
the three shape decodes. -/
inductive RespErr where
  | malformedTopLevel
  | standardError
  | hybridError
  | legacyError
deriving DecidableEq

/-- `ChatResponse.UnmarshalJSON` over a parsed top-level value. -/
def decodeChatResponse (top : Json) : Except RespErr ChatResponse :=
  match decodeShell top with
  | .error _ => .error .malformedTopLevel
  | .ok sh =>
    let base : ChatResponse :=
      ⟨sh.success, sh.errors, sh.messages, sh.resultRaw, false, default, default⟩
    match sh.resultRaw with
    | none => .ok base
    | some res =>
      if (Json.render res).length < 2 then .ok base
      else
        match classifyResult res with
        | .standard =>
          match decodeChatCompletionResponse res with
          | .ok ccr => .ok { base with isLegacyResult := false, chatCompletionResponse := ccr }
          | .error _ => .error .standardError
        | .hybrid =>
          match decodeHybridBody res with
          | .ok (tcs, u) =>
            .ok { base with
                  isLegacyResult := false,
                  chatCompletionResponse :=
                    { (default : ChatCompletionResponse) with
                      choices := [⟨0, ⟨"assistant", none, tcs, ""⟩, ""⟩],
                      usage := u } }
          | .error _ => .error .hybridError
        | .legacy =>
          match decodeLegacyResponse res with
          | .ok lr => .ok { base with isLegacyResult := true, legacyResponse := lr }
          | .error _ => .error .legacyError

/-- `ChatResponse.UnmarshalJSON` from raw characters: a failed parse is
the shell `json.Unmarshal` error. -/
def decodeBytes (s : String) : Except RespErr ChatResponse :=
  match parseJson s.data with
  | none => .error .malformedTopLevel
  | some j => decodeChatResponse j

/-! ## The accessors (client.go) -/

/-- `ChatResponse.GetContent`. -/
def getContent (r : ChatResponse) : String :=
  if r.isLegacyResult then r.legacyResponse.response
  else
    match r.chatCompletionResponse.choices with
    | choice :: _ =>
      match choice.message.content with
      | some c => c
      | none => ""
    | [] => ""

/-- `ChatResponse.GetReasoningContent`. -/
def getReasoningContent (r : ChatResponse) : String :=
  match r.chatCompletionResponse.choices with
  | choice :: _ => choice.message.reasoningContent
  | [] => ""

/-- `string(legacyCall.Arguments)`: a nil fragment reads as the empty
string, otherwise the fragment's text. -/
def renderRawArgs : Option Json → String
  | none => ""
  | some v => Json.render v

/-- The adaptation loop in `GetToolCalls`: `for i, legacyCall := range`. -/
def adaptLegacyCalls : Nat → List LegacyToolCall → List ToolCall
  | _, [] => []
  | i, c :: cs =>
    ⟨"legacy-tool-call-" ++ toString i, "function", ⟨c.name, renderRawArgs c.arguments⟩⟩
      :: adaptLegacyCalls (i + 1) cs

/-- `ChatResponse.GetToolCalls`. -/
def getToolCalls (r : ChatResponse) : List ToolCall :=
  if r.isLegacyResult then
    match r.legacyResponse.toolCalls with
    | none => []
    | some l => adaptLegacyCalls 0 l
  else
    match r.chatCompletionResponse.choices with
    | choice :: _ => choice.message.toolCalls
    | [] => []

/-! ## Request messages and `ChatCompletionRequest` -/

/-- `ChatMessage`: a plain chat turn.  `content` and `tool_calls` carry
`omitempty`. -/
structure ChatMessage where
  role : String
  content : String
  toolCalls : List ToolCall
deriving DecidableEq, Inhabited

/-- `ToolMessage`: a tool-result turn (no `omitempty` on any field). -/
structure ToolMessage where
  role : String
  content : String
  toolCallID : String
deriving DecidableEq, Inhabited

/-- The `Message` interface: the closed set of concrete variants. -/
inductive Msg where
  | chat (m : ChatMessage)
  | response (m : ResponseMessage)
  | tool (m : ToolMessage)
deriving DecidableEq

/-- `ChatCompletionRequest`.  The `Tools` field (and nothing in its decode
loop touches it) is left out of the model: the claims under study never
populate it, and `tools,omitempty` vanishes from the wire when empty. -/
structure ChatCompletionRequest where
  model : String
  messages : List Msg
  stream : Bool
deriving DecidableEq

/-- Decode one message as a `ChatMessage`. -/
def decodeChatMessage (v : Json) : Except Unit ChatMessage :=
  match v with
  | .null => .ok default
  | .obj _ => do
    let r ← decStringField v "role"
    let c ← decStringField v "content"
    let tcs ← decodeToolCallListField v "tool_calls"
    pure ⟨r, c, tcs⟩
  | _ => .error ()

/-- Decode one message as a `ToolMessage`. -/
def decodeToolMessage (v : Json) : Except Unit ToolMessage :=
  match v with
  | .null => .ok default
  | .obj _ => do
    let r ← decStringField v "role"
    let c ← decStringField v "content"
    let i ← decStringField v "tool_call_id"
    pure ⟨r, c, i⟩
  | _ => .error ()

/-- Errors of `ChatCompletionRequest.UnmarshalJSON`, one constructor per
return site. -/
inductive ReqErr where
  | shellError
  | probeError
  | badChatMessage
  | badResponseMessage
  | badToolMessage
  | unknownRole (value : String)
deriving DecidableEq

/-- The role probe (`struct\x7bRole string\x7d`): a message that is not an
object fails; an absent or null role probes as the empty string. -/
def probeRole (m : Json) : Except Unit String :=
  match m with
  | .null => .ok ""
  | .obj _ => decStringField m "role"
  | _ => .error ()

/-- The assistant probe `len(toolCallProbe.ToolCalls) > 0`, errors of the
probe unmarshal ignored: true exactly when `tool_calls` is a non-empty
array (a wrong-typed or erroring element still occupies a slot). -/
def reqHasToolCalls (m : Json) : Bool :=
  match m.getField "tool_calls" with
  | some (.arr (_ :: _)) => true
  | _ => false

/-- The per-message dispatch in `ChatCompletionRequest.UnmarshalJSON`. -/
def decodeRequestMessage (m : Json) : Except ReqErr Msg :=
  match probeRole m with
  | .error _ => .error .probeError
  | .ok role =>
    if role = "user" ∨ role = "system" then
      match decodeChatMessage m with
      | .ok cm => .ok (.chat cm)
      | .error _ => .error .badChatMessage
    else if role = "assistant" then
      if reqHasToolCalls m then
        match decodeResponseMessage m with
        | .ok rm => .ok (.response rm)
        | .error _ => .error .badResponseMessage
      else
        match decodeChatMessage m with
        | .ok cm => .ok (.chat cm)
        | .error _ => .error .badChatMessage
    else if role = "tool" then
      match decodeToolMessage m with
      | .ok tm => .ok (.tool tm)
      | .error _ => .error .badToolMessage
    else .error (.unknownRole role)

/-- `ChatCompletionRequest.UnmarshalJSON`: shell decode (messages kept
raw), then the dispatch loop. -/
def decodeChatCompletionRequest (top : Json) : Except ReqErr ChatCompletionRequest :=
  match top with
  | .null => .ok ⟨"", [], false⟩
  | .obj _ =>
    match decStringField top "model", decBoolField top "stream",
        decodeMessagesField top "messages" with
    | .ok model, .ok stream, .ok raws =>
      match mapME decodeRequestMessage raws with
      | .ok msgs => .ok ⟨model, msgs, stream⟩
      | .error e => .error e
    | _, _, _ => .error .shellError
  | _ => .error .shellError

/-! ## Marshaling (the default `encoding/json` encoder on these structs) -/

/-- A `*string` marshals to null when nil. -/
def contentJson : Option String → Json
  | none => .null
  | some s => .str s

def marshalToolCall (tc : ToolCall) : Json :=
  .obj [("id", .str tc.id), ("type", .str tc.type),
        ("function", .obj [("name", .str tc.function.name),
                           ("arguments", .str tc.function.arguments)])]

/-- `ChatMessage` marshals with `content` and `tool_calls` omitted when
empty. -/
def marshalChatMessage (m : ChatMessage) : Json :=
  .obj ([("role", .str m.role)]
    ++ (if m.content = "" then [] else [("content", .str m.content)])
    ++ (if m.toolCalls.isEmpty then []
        else [("tool_calls", .arr (m.toolCalls.map marshalToolCall))]))

/-- `ToolMessage` marshals all three fields unconditionally. -/
def marshalToolMessage (m : ToolMessage) : Json :=
  .obj [("role", .str m.role), ("content", .str m.content),
        ("tool_call_id", .str m.toolCallID)]

/-- `ResponseMessage` marshals `content` unconditionally (no `omitempty`
on the `*string`), `tool_calls` and `reasoning_content` only when
non-empty. -/
def marshalResponseMessage (m : ResponseMessage) : Json :=
  .obj ([("role", .str m.role), ("content", contentJson m.content)]
    ++ (if m.toolCalls.isEmpty then []
        else [("tool_calls", .arr (m.toolCalls.map marshalToolCall))])
    ++ (if m.reasoningContent = "" then []
        else [("reasoning_content", .str m.reasoningContent)]))

/-- Each variant serializes through its own struct shape. -/
def marshalMsg : Msg → Json
  | .chat m => marshalChatMessage m
  | .response m => marshalResponseMessage m
  | .tool m => marshalToolMessage m

/-- `json.Marshal` of a request (the empty `tools` slice is omitted). -/
def marshalChatCompletionRequest (r : ChatCompletionRequest) : Json :=
  .obj ([("model", .str r.model), ("messages", .arr (r.messages.map marshalMsg))]
    ++ (if r.stream then [("stream", .bool true)] else []))

/-! ## Claim C1: response-format classification -/

/-- Does the object carry this key with a non-null value? -/
def hasNonNullKey (j : Json) (key : String) : Bool :=
  match j.getField key with
  | some .null => false
  | some _ => true
  | none => false

/-- The spec's Hybrid condition, in its words: `tool_calls` is a present,
non-empty array whose first element carries a non-empty `id`. -/
def specHybridCond (res : Json) : Bool :=
  match res.getField "tool_calls" with
  | some (.arr (e :: _)) =>
    match e.getField "id" with
    | some (.str s) => s != ""
    | _ => false
  | _ => false

/-- Classification as claim C1 words it: a `choices` key (any value,
"even an empty array") means Standard; otherwise the Hybrid condition;
otherwise Legacy. -/
def specClassifyC1 (res : Json) : RFormat :=
  if res.hasKey "choices" then .standard
  else if specHybridCond res then .hybrid
  else .legacy

/-- Classification as amended: only a `choices` key with a **non-null**
value selects Standard; a `choices: null` key counts as absent. -/
def specClassifyC1Amended (res : Json) : RFormat :=
  if hasNonNullKey res "choices" then .standard
  else if specHybridCond res then .hybrid
  else .legacy

/-- The id-probe of a first `tool_calls` element and the spec's wording of
"carries a non-empty `id`" agree, whichever shape the `id` field has. -/
theorem elemCondAgrees (o : Option Json) :
    (if (match o with | some (.str s) => s | _ => "") ≠ "" then RFormat.hybrid
     else RFormat.legacy)
      = if (match o with | some (.str s) => s != "" | _ => false) = true then RFormat.hybrid
        else RFormat.legacy := by
  rcases o with _ | w
  · simp
  · cases w with
    | str s => by_cases hs : s = "" <;> simp [hs]
    | _ => simp

/-- A result object carrying `choices: null` together with modern tool
calls.  Claim C1 classifies it Standard (it has a `choices` key). -/
def c1res : Json :=
  .obj [("choices", .null), ("tool_calls", .arr [.obj [("id", .str "a")]])]

/-- C1 (counterexample): on a result object whose `choices` key holds JSON
null, the claim's rule picks Standard, but the code's probe (a nil
`*json.RawMessage`) treats the key as absent and `UnmarshalJSON` takes the
Hybrid branch, synthesizing a choice carrying the tool calls. -/
theorem c1_counterexample :
    specClassifyC1 c1res = RFormat.standard
    ∧ classifyResult c1res = RFormat.hybrid
    ∧ (decodeChatResponse (.obj [("result", c1res)])).map
        (fun r => (r.isLegacyResult, (getToolCalls r).map ToolCall.id))
      = .ok (false, ["a"]) :=
  ⟨rfl, rfl, rfl⟩

/-- C1 (amended): `ChatResponse.UnmarshalJSON` selects exactly one of the
three formats in priority order: a `choices` key with a non-null value
(even an empty array) selects Standard; otherwise a present, non-empty
`tool_calls` array whose first element carries a non-empty `id` selects
Hybrid; otherwise Legacy.  A `choices: null` key counts as absent. -/
theorem c1_amended (res : Json) : classifyResult res = specClassifyC1Amended res := by
  unfold classifyResult specClassifyC1Amended
  have hc : (probeChoices res).isSome = hasNonNullKey res "choices" := by
    unfold probeChoices hasNonNullKey
    cases h : res.getField "choices" with
    | none => rfl
    | some v => cases v <;> rfl
  rw [hc]
  cases hasNonNullKey res "choices" with
  | true => rfl
  | false =>
    simp only [Bool.false_eq_true, if_false]
    unfold probeToolCalls specHybridCond
    cases h : res.getField "tool_calls" with
    | none => rfl
    | some v =>
      cases v with
      | arr xs =>
        cases xs with
        | nil => rfl
        | cons e rest =>
          simp only [List.map]
          unfold probeElemId
          exact elemCondAgrees (e.getField "id")
      | null => rfl
      | bool b => rfl
      | num n => rfl
      | str s => rfl
      | obj fs => rfl

/-! ## Claim C2: request-message role dispatch -/

/-- C2: `ChatCompletionRequest.UnmarshalJSON` re-derives each message's
variant from its probed `role` alone plus, for assistant, the presence of
a non-empty `tool_calls` array: system/user give a `ChatMessage`,
assistant with non-empty `tool_calls` a `ResponseMessage`, assistant
without a `ChatMessage`, tool a `ToolMessage`; any other probed role value
fails with the unknown-role error carrying that value, and an absent
`role` key probes as the empty string. -/
theorem c2_role_dispatch (m : Json) (role : String) (h : probeRole m = .ok role) :
    ((role = "user" ∨ role = "system") →
      decodeRequestMessage m =
        match decodeChatMessage m with
        | .ok cm => .ok (.chat cm)
        | .error _ => .error .badChatMessage)
    ∧ (role = "assistant" → reqHasToolCalls m = true →
      decodeRequestMessage m =
        match decodeResponseMessage m with
        | .ok rm => .ok (.response rm)
        | .error _ => .error .badResponseMessage)
    ∧ (role = "assistant" → reqHasToolCalls m = false →
      decodeRequestMessage m =
        match decodeChatMessage m with
        | .ok cm => .ok (.chat cm)
        | .error _ => .error .badChatMessage)
    ∧ (role = "tool" →
      decodeRequestMessage m =
        match decodeToolMessage m with
        | .ok tm => .ok (.tool tm)
        | .error _ => .error .badToolMessage)
    ∧ (role ≠ "user" → role ≠ "system" → role ≠ "assistant" → role ≠ "tool" →
      decodeRequestMessage m = .error (.unknownRole role))
    ∧ (∀ fs, m = .obj fs → Json.getLast fs "role" = none → role = "") := by
  refine ⟨?_, ?_, ?_, ?_, ?_, ?_⟩
  · intro hr
    simp only [decodeRequestMessage, h, if_pos hr]
  · intro hr htc
    subst hr
    simp [decodeRequestMessage, h, htc]
  · intro hr htc
    subst hr
    simp [decodeRequestMessage, h, htc]
  · intro hr
    subst hr
    simp [decodeRequestMessage, h]
  · intro h1 h2 h3 h4
    simp only [decodeRequestMessage, h]
    rw [if_neg (by simp [h1, h2]), if_neg h3, if_neg h4]
  · intro fs hm hrole
    subst hm
    simp only [probeRole, decStringField, Json.getField, hrole] at h
    injection h with h
    exact h.symm

/-- C2 (witness): a message with role `"developer"` probes to that role
and fails to decode with `UnknownRole("developer")`. -/
theorem c2_witness :
    probeRole (.obj [("role", .str "developer"), ("content", .str "x")])
      = .ok "developer"
    ∧ decodeRequestMessage (.obj [("role", .str "developer"), ("content", .str "x")])
      = .error (.unknownRole "developer") :=
  ⟨rfl,
    (c2_role_dispatch (.obj [("role", .str "developer"), ("content", .str "x")])
        "developer" rfl).2.2.2.2.1
      (by decide) (by decide) (by decide) (by decide)⟩

/-! ## Claim C3: the content accessor -/

/-- A Standard response whose first choice has a null `content` and a
non-empty `reasoning_content`. -/
def c3doc : Json :=
  .obj [("result", .obj [("choices", .arr [
    .obj [("message", .obj [("role", .str "assistant"), ("content", .null),
                            ("reasoning_content", .str "R")])]])])]

/-- C3 (counterexample): the claim has `content()` fall back to the first
choice's `reasoning_content` when `content` is null, but `GetContent`
never consults `reasoning_content`: on a Standard result with `content`
null and `reasoning_content = "R"` it returns the empty string. -/
theorem c3_counterexample :
    (decodeChatResponse c3doc).map
      (fun r => (r.isLegacyResult, getContent r, getReasoningContent r))
      = .ok (false, "", "R") :=
  rfl

/-- C3 (amended): for a Standard or Hybrid result `content()` returns the
first choice's `content` when non-null and the empty string otherwise
(there is no `reasoning_content` fallback); for a Legacy result it returns
the `response` field, which holds the literal text "null" whenever the
wire value of `response` was explicitly JSON null. -/
theorem c3_amended :
    (∀ r : ChatResponse, r.isLegacyResult = false →
      getContent r =
        match r.chatCompletionResponse.choices with
        | choice :: _ =>
          (match choice.message.content with
           | some c => c
           | none => "")
        | [] => "")
    ∧ (∀ r : ChatResponse, r.isLegacyResult = true →
      getContent r = r.legacyResponse.response)
    ∧ (∀ (fs : List (String × Json)) (lr : LegacyResponse),
        Json.getLast fs "response" = some .null →
        decodeLegacyResponse (.obj fs) = .ok lr →
        lr.response = "null") := by
  refine ⟨?_, ?_, ?_⟩
  · intro r h
    simp [getContent, h]
  · intro r h
    simp [getContent, h]
  · intro fs lr hresp hdec
    simp only [decodeLegacyResponse, Json.getField, hresp] at hdec
    rcases h1 : decodeLegacyToolCallsField (.obj fs) "tool_calls" with e | tcs <;>
      rw [h1] at hdec
    · cases hdec
    · rcases h2 : decodeUsageField (.obj fs) "usage" with e | u <;> rw [h2] at hdec
      · cases hdec
      · simp only [Except.bind, bind, pure, Except.pure] at hdec
        injection hdec with hdec
        rw [← hdec]
        rfl


/-- C3 (witness): decoding a result whose `response` is wire null yields a
Legacy payload holding the literal text "null", and `content()` of a
Legacy response returns exactly that field. -/
theorem c3_witness :
    decodeLegacyResponse (.obj [("response", Json.null)]) = .ok ⟨"null", none, ⟨0, 0, 0⟩⟩
    ∧ ((⟨"null", none, ⟨0, 0, 0⟩⟩ : LegacyResponse)).response = "null"
    ∧ getContent ⟨false, [], [], none, true, default, ⟨"null", none, ⟨0, 0, 0⟩⟩⟩ = "null" := by
  refine ⟨rfl, ?_, ?_⟩
  · exact c3_amended.2.2 [("response", Json.null)] ⟨"null", none, ⟨0, 0, 0⟩⟩ rfl rfl
  · rw [c3_amended.2.1 _ rfl]

/-! ## Claim C4: the tool-call accessor -/

theorem adaptLegacyCalls_length (l : List LegacyToolCall) :
    ∀ j, (adaptLegacyCalls j l).length = l.length := by
  induction l with
  | nil => intro j; rfl
  | cons hd tl ih => intro j; simp [adaptLegacyCalls, ih]

theorem adaptLegacyCalls_get (l : List LegacyToolCall) :
    ∀ (j i : Nat) (c : LegacyToolCall), l.get? i = some c →
      (adaptLegacyCalls j l).get? i
        = some ⟨"legacy-tool-call-" ++ toString (j + i), "function",
                ⟨c.name, renderRawArgs c.arguments⟩⟩ := by
  induction l with
  | nil => intro j i c hc; cases i <;> cases hc
  | cons hd tl ih =>
    intro j i c hc
    cases i with
    | zero =>
      injection hc with hc
      subst hc
      simp [adaptLegacyCalls]
    | succ i =>
      have step := ih (j + 1) i c hc
      have harith : j + 1 + i = j + (i + 1) := by omega
      rw [harith] at step
      simpa [adaptLegacyCalls] using step

/-- C4: for a decoded Legacy result holding a tool-call list of length n,
`GetToolCalls` returns n adapted calls, the i-th carrying the synthesized
id `legacy-tool-call-i`, type `"function"`, the legacy call's name, and
the raw arguments fragment re-serialized as a string; for a non-legacy
result it returns the first choice's tool calls verbatim. -/
theorem c4_toolcalls :
    (∀ (r : ChatResponse) (l : List LegacyToolCall),
      r.isLegacyResult = true → r.legacyResponse.toolCalls = some l →
      (getToolCalls r).length = l.length ∧
      ∀ (i : Nat) (c : LegacyToolCall), l.get? i = some c →
        (getToolCalls r).get? i
          = some ⟨"legacy-tool-call-" ++ toString i, "function",
                  ⟨c.name, renderRawArgs c.arguments⟩⟩)
    ∧ (∀ (r : ChatResponse) (choice : Choice) (rest : List Choice),
        r.isLegacyResult = false →
        r.chatCompletionResponse.choices = choice :: rest →
        getToolCalls r = choice.message.toolCalls) := by
  constructor
  · intro r l h1 h2
    have hg : getToolCalls r = adaptLegacyCalls 0 l := by
      simp [getToolCalls, h1, h2]
    refine ⟨by rw [hg, adaptLegacyCalls_length], ?_⟩
    intro i c hc
    rw [hg]
    simpa using adaptLegacyCalls_get l 0 i c hc
  · intro r choice rest h1 h2
    simp [getToolCalls, h1, h2]

/-- The legacy tool-call payload of the claim:
`result.tool_calls = [ \x7bname: gablorken, arguments: \x7b\x7d\x7d ]`. -/
def c4doc : Json :=
  .obj [("result", .obj [("tool_calls",
    .arr [.obj [("name", .str "gablorken"), ("arguments", .obj [])]])])]

def c4resp : ChatResponse :=
  match decodeChatResponse c4doc with
  | .ok r => r
  | .error _ => default

/-- C4 (witness): the claim's payload decodes as Legacy and its first
adapted tool call carries id `legacy-tool-call-0` and the arguments
re-serialized to the text `\x7b\x7d`. -/
theorem c4_witness :
    c4resp.isLegacyResult = true
    ∧ (getToolCalls c4resp).get? 0
        = some ⟨"legacy-tool-call-0", "function", ⟨"gablorken", "\x7b\x7d"⟩⟩ := by
  refine ⟨rfl, ?_⟩
  exact (c4_toolcalls.1 c4resp [⟨"gablorken", some (.obj [])⟩] rfl rfl).2 0
    ⟨"gablorken", some (.obj [])⟩ rfl

/-! ## Claim C5: the Hybrid branch -/

/-- C5: on a result object lacking a `choices` key whose `tool_calls` is a
present, non-empty array with a non-empty probed first `id`,
`UnmarshalJSON` leaves `IsLegacyResult = false` and synthesizes exactly
one Standard-shaped choice whose message has role `assistant` and the
result's tool calls, carrying over the result's usage. -/
theorem c5_hybrid (top : Json) (sh : ShellFields) (res e : Json)
    (rest : List Json) (tcs : List ToolCall) (u : Usage)
    (hsh : decodeShell top = .ok sh)
    (hres : sh.resultRaw = some res)
    (hlen : ¬ (Json.render res).length < 2)
    (hch : res.getField "choices" = none)
    (htc : res.getField "tool_calls" = some (.arr (e :: rest)))
    (hid : probeElemId e ≠ "")
    (hbody : decodeHybridBody res = .ok (tcs, u)) :
    decodeChatResponse top
      = .ok ⟨sh.success, sh.errors, sh.messages, sh.resultRaw, false,
             ⟨"", "", 0, "", [⟨0, ⟨"assistant", none, tcs, ""⟩, ""⟩], u⟩,
             default⟩ := by
  have hclass : classifyResult res = .hybrid := by
    have hpc : probeChoices res = none := by
      unfold probeChoices
      rw [hch]
    unfold classifyResult
    rw [hpc]
    simp only [Option.isSome_none, Bool.false_eq_true, if_false]
    unfold probeToolCalls
    rw [htc]
    simp [hid]
  simp only [decodeChatResponse, hsh, hres, if_neg hlen, hclass, hbody]
  rfl

/-- The result object of the claim's Hybrid payload. -/
def c5res : Json :=
  .obj [("tool_calls", .arr [
    .obj [("id", .str "call_abc"), ("type", .str "function"),
          ("function", .obj [("name", .str "get_weather"),
                             ("arguments", .str "\x7b\x7d")])]])]

def c5doc : Json := .obj [("result", c5res)]

/-- C5 (witness): the claim's payload decodes to a non-legacy response
whose (synthesized) first choice carries the tool call `call_abc`. -/
theorem c5_witness :
    (decodeChatResponse c5doc).map
      (fun r => (r.isLegacyResult, (getToolCalls r).map ToolCall.id))
      = .ok (false, ["call_abc"]) := by
  rw [c5_hybrid c5doc ⟨false, [], [], some c5res⟩ c5res
      (.obj [("id", .str "call_abc"), ("type", .str "function"),
             ("function", .obj [("name", .str "get_weather"),
                                ("arguments", .str "\x7b\x7d")])])
      [] [⟨"call_abc", "function", ⟨"get_weather", "\x7b\x7d"⟩⟩] ⟨0, 0, 0⟩
      rfl rfl (by decide) rfl rfl (by decide) rfl]
  rfl

/-! ## Claim C6: the empty-result guard -/

/-- A top-level document without a `result` key. -/
def c6doc : Json := .obj [("success", .bool true)]

/-- C6 (counterexample): when `result` is absent, decode succeeds but the
`len < 2` early return fires before any branch sets the flag, so
`IsLegacyResult` stays `false`, against the claim's `format = Legacy`. -/
theorem c6_counterexample :
    (decodeChatResponse c6doc).map (fun r => (r.isLegacyResult, getContent r))
      = .ok (false, "") :=
  rfl

/-- C6 (amended): if `result` is the empty object the decode succeeds with
`IsLegacyResult = true` and the default Legacy payload; if `result` is
absent the decode also succeeds with empty default payloads, but
`IsLegacyResult` remains `false`; `content()` is the empty string in both
cases. -/
theorem c6_amended (top : Json) (sh : ShellFields)
    (h : decodeShell top = .ok sh) :
    (sh.resultRaw = none →
      decodeChatResponse top
        = .ok ⟨sh.success, sh.errors, sh.messages, none, false, default, default⟩)
    ∧ (sh.resultRaw = some (.obj []) →
      decodeChatResponse top
        = .ok ⟨sh.success, sh.errors, sh.messages, some (.obj []), true,
               default, default⟩)
    ∧ (∀ (su : Bool) (er : List String) (ms : List Json) (rr : Option Json)
        (fl : Bool),
        getContent ⟨su, er, ms, rr, fl, default, default⟩ = "") := by
  refine ⟨?_, ?_, ?_⟩
  · intro hr
    simp only [decodeChatResponse, h, hr]
  · intro hr
    simp only [decodeChatResponse, h, hr]
    rfl
  · intro su er ms rr fl
    cases fl <;> rfl

/-- C6 (witness): the document `\x7b"success": true, "result": \x7b\x7d\x7d`
decodes with `IsLegacyResult = true` and empty content. -/
theorem c6_witness :
    (decodeChatResponse (.obj [("success", .bool true), ("result", .obj [])])).map
      (fun r => (r.isLegacyResult, getContent r)) = .ok (true, "") := by
  have h := c6_amended (.obj [("success", .bool true), ("result", .obj [])])
    ⟨true, [], [], some (.obj [])⟩ rfl
  rw [h.2.1 rfl]
  rfl

/-! ## Claim C7: serializing an assistant tool-call message -/

/-- An assistant tool-call message with no content (nil pointer). -/
def c7msg : ResponseMessage :=
  ⟨"assistant", none, [⟨"t1", "function", ⟨"f", "\x7b\x7d"⟩⟩], ""⟩

/-- C7 (counterexample): the claim says the emitted object contains no
`content` key at all, but `ResponseMessage.Content` carries no
`omitempty`, so a nil pointer marshals as an explicit `content: null`. -/
theorem c7_counterexample :
    Json.hasKey (marshalResponseMessage c7msg) "content" = true
    ∧ (marshalResponseMessage c7msg).getField "content" = some Json.null :=
  ⟨rfl, rfl⟩

/-- C7 (amended): for every assistant tool-call message the serialized
object always carries a `content` key — JSON null when the Go pointer is
nil, the string value otherwise. -/
theorem c7_amended (m : ResponseMessage) (h : m.toolCalls ≠ []) :
    (marshalResponseMessage m).getField "content" = some (contentJson m.content) := by
  rcases hl : m.toolCalls with _ | ⟨tc, tcs⟩
  · exact absurd hl h
  · unfold marshalResponseMessage
    rw [hl]
    by_cases hr : m.reasoningContent = ""
    · rw [if_pos hr]
      rfl
    · rw [if_neg hr]
      rfl

/-- C7 (witness): at the concrete assistant tool-call message the content
key is present and holds JSON null. -/
theorem c7_witness :
    c7msg.toolCalls ≠ []
    ∧ (marshalResponseMessage c7msg).getField "content" = some Json.null :=
  ⟨by decide, c7_amended c7msg (by decide)⟩

/-! ## Claim C10: accessor totality on empty choices -/

/-- C10: on a non-legacy response with an empty `choices` array every
accessor takes its guard branch: empty content, empty reasoning content,
nil tool calls. -/
theorem c10_accessors_total (r : ChatResponse)
    (h1 : r.isLegacyResult = false)
    (h2 : r.chatCompletionResponse.choices = []) :
    getContent r = "" ∧ getReasoningContent r = "" ∧ getToolCalls r = [] := by
  refine ⟨?_, ?_, ?_⟩ <;>
    simp [getContent, getReasoningContent, getToolCalls, h1, h2]

/-- A decoded Standard response with `choices: []`. -/
def c10resp : ChatResponse :=
  match decodeChatResponse (.obj [("result", .obj [("choices", .arr [])])]) with
  | .ok r => r
  | .error _ => default

/-- C10 (witness): the empty-choices Standard document decodes non-legacy
and all three accessors return their defaults. -/
theorem c10_witness :
    c10resp.isLegacyResult = false ∧ getContent c10resp = ""
    ∧ getReasoningContent c10resp = "" ∧ getToolCalls c10resp = [] := by
  have h := c10_accessors_total c10resp rfl rfl
  exact ⟨rfl, h.1, h.2.1, h.2.2⟩

/-! ## Claim C9: error handling and error scoping -/

/-- C9: input that fails the JSON parse surfaces the top-level shell error
(`MalformedTopLevel`); and once a result is classified into a shape, a
failure of that shape's decode surfaces as that branch's error — the
payload is never reclassified into a different shape. -/
theorem c9_errors :
    (∀ s : String, parseJson s.data = none →
      decodeBytes s = .error .malformedTopLevel)
    ∧ (∀ (top : Json) (sh : ShellFields) (res : Json),
        decodeShell top = .ok sh → sh.resultRaw = some res →
        ¬ (Json.render res).length < 2 →
        ((classifyResult res = .standard →
            decodeChatCompletionResponse res = .error () →
            decodeChatResponse top = .error .standardError)
        ∧ (classifyResult res = .hybrid →
            decodeHybridBody res = .error () →
            decodeChatResponse top = .error .hybridError)
        ∧ (classifyResult res = .legacy →
            decodeLegacyResponse res = .error () →
            decodeChatResponse top = .error .legacyError))) := by
  constructor
  · intro s h
    simp only [decodeBytes, h]
  · intro top sh res hsh hres hlen
    refine ⟨?_, ?_, ?_⟩ <;> intro hcl hdec <;>
      simp only [decodeChatResponse, hsh, hres, if_neg hlen, hcl, hdec]

/-- The test suite's malformed top-level document (truncated JSON). -/
def c9badBytes : String := "\x7b\"success\": true, \"result\": \x7b"

/-- A result classified Standard whose `choices` has the wrong type. -/
def c9res : Json := .obj [("choices", .str "nope")]

/-- C9 (witness): the truncated document fails with the top-level error,
and a Standard-classified result with a wrong-typed `choices` surfaces the
Standard-branch error. -/
theorem c9_witness :
    parseJson c9badBytes.data = none
    ∧ decodeBytes c9badBytes = .error .malformedTopLevel
    ∧ classifyResult c9res = .standard
    ∧ decodeChatResponse (.obj [("result", c9res)]) = .error .standardError := by
  have hp : parseJson c9badBytes.data = none := rfl
  refine ⟨hp, c9_errors.1 c9badBytes hp, rfl, ?_⟩
  exact (c9_errors.2 (.obj [("result", c9res)]) ⟨false, [], [], some c9res⟩
      c9res rfl rfl (by decide)).1 rfl rfl

/-! ## Claim C8: encode/decode round trip of the message list -/

theorem decodeToolCall_marshal (tc : ToolCall) :
    decodeToolCall (marshalToolCall tc) = .ok tc := rfl

theorem mapME_toolCalls (l : List ToolCall) :
    mapME decodeToolCall (l.map marshalToolCall) = .ok l := by
  induction l with
  | nil => rfl
  | cons hd tl ih =>
    simp only [List.map_cons, mapME]
    rw [decodeToolCall_marshal, ih]
    rfl

/-- `mapME_toolCalls` with the head map already pushed through. -/
theorem mapME_toolCalls_cons (tc : ToolCall) (tl : List ToolCall) :
    mapME decodeToolCall (marshalToolCall tc :: tl.map marshalToolCall)
      = .ok (tc :: tl) :=
  mapME_toolCalls (tc :: tl)

theorem decodeChatMessage_marshal (m : ChatMessage) :
    decodeChatMessage (marshalChatMessage m) = .ok m := by
  obtain ⟨role, content, tcs⟩ := m
  by_cases hc : content = "" <;> rcases tcs with _ | ⟨tc, tl⟩ <;>
    simp [marshalChatMessage, decodeChatMessage, decStringField,
          decodeToolCallListField, Json.getField, Json.getLast, hc,
          mapME_toolCalls_cons] <;> rfl

theorem probeRole_marshalChat (m : ChatMessage) :
    probeRole (marshalChatMessage m) = .ok m.role := by
  obtain ⟨role, content, tcs⟩ := m
  by_cases hc : content = "" <;> rcases tcs with _ | ⟨tc, tl⟩ <;>
    simp [marshalChatMessage, probeRole, decStringField, Json.getField,
          Json.getLast, hc]

theorem reqHasToolCalls_marshalChat (m : ChatMessage) :
    reqHasToolCalls (marshalChatMessage m) = !m.toolCalls.isEmpty := by
  obtain ⟨role, content, tcs⟩ := m
  by_cases hc : content = "" <;> rcases tcs with _ | ⟨tc, tl⟩ <;>
    simp [marshalChatMessage, reqHasToolCalls, Json.getField, Json.getLast, hc]

theorem decodeResponseMessage_marshal (m : ResponseMessage)
    (h : m.toolCalls ≠ []) :
    decodeResponseMessage (marshalResponseMessage m) = .ok m := by
  obtain ⟨role, content, tcs, rc⟩ := m
  rcases tcs with _ | ⟨tc, tl⟩
  · exact absurd rfl h
  · rcases content with _ | c <;> by_cases hr : rc = "" <;>
      simp [marshalResponseMessage, decodeResponseMessage, decStringField,
            decOptStringField, contentJson, decodeToolCallListField,
            Json.getField, Json.getLast, hr, mapME_toolCalls_cons] <;> rfl

theorem probeRole_marshalResp (m : ResponseMessage) :
    probeRole (marshalResponseMessage m) = .ok m.role := by
  obtain ⟨role, content, tcs, rc⟩ := m
  rcases content with _ | c <;> rcases tcs with _ | ⟨tc, tl⟩ <;>
    by_cases hr : rc = "" <;>
    simp [marshalResponseMessage, probeRole, decStringField, contentJson,
          Json.getField, Json.getLast, hr]

theorem reqHasToolCalls_marshalResp (m : ResponseMessage)
    (h : m.toolCalls ≠ []) :
    reqHasToolCalls (marshalResponseMessage m) = true := by
  obtain ⟨role, content, tcs, rc⟩ := m
  rcases tcs with _ | ⟨tc, tl⟩
  · exact absurd rfl h
  · rcases content with _ | c <;> by_cases hr : rc = "" <;>
      simp [marshalResponseMessage, reqHasToolCalls, contentJson,
            Json.getField, Json.getLast, hr]

theorem decodeToolMessage_marshal (m : ToolMessage) :
    decodeToolMessage (marshalToolMessage m) = .ok m := rfl

theorem probeRole_marshalTool (m : ToolMessage) :
    probeRole (marshalToolMessage m) = .ok m.role := rfl

/-- Well-formedness of an outbound message, as the amended claim needs it:
a `ChatMessage` has one of the three chat roles and, when the role is
assistant, no tool calls; a `ResponseMessage` has role assistant and
non-empty tool calls; a `ToolMessage` has role tool. -/
def wfMsg : Msg → Bool
  | .chat m =>
    (m.role == "system" || m.role == "user" || m.role == "assistant")
      && (!(m.role == "assistant") || m.toolCalls.isEmpty)
  | .response m => m.role == "assistant" && !m.toolCalls.isEmpty
  | .tool m => m.role == "tool"

theorem msg_roundtrip (m : Msg) (h : wfMsg m = true) :
    decodeRequestMessage (marshalMsg m) = .ok m := by
  cases m with
  | chat cm =>
    simp only [wfMsg, Bool.and_eq_true, Bool.or_eq_true, beq_iff_eq,
      Bool.not_eq_true', beq_eq_false_iff_ne, List.isEmpty_iff] at h
    obtain ⟨hrole, hat⟩ := h
    simp only [marshalMsg, decodeRequestMessage, probeRole_marshalChat]
    rcases hrole with (hr | hr) | hr
    · rw [if_pos (Or.inr hr), decodeChatMessage_marshal]
    · rw [if_pos (Or.inl hr), decodeChatMessage_marshal]
    · have htcs : cm.toolCalls = [] := by
        rcases hat with hne | he
        · exact absurd hr hne
        · exact he
      rw [if_neg (by simp [hr]), if_pos hr, reqHasToolCalls_marshalChat]
      simp only [htcs, List.isEmpty_nil, Bool.not_true, Bool.false_eq_true,
        if_false]
      rw [decodeChatMessage_marshal]
  | response rm =>
    simp only [wfMsg, Bool.and_eq_true, beq_iff_eq, Bool.not_eq_true'] at h
    obtain ⟨hrole, htc⟩ := h
    have htc' : rm.toolCalls ≠ [] := by
      intro he
      simp [he] at htc
    simp only [marshalMsg, decodeRequestMessage, probeRole_marshalResp]
    rw [if_neg (by simp [hrole]), if_pos hrole,
      reqHasToolCalls_marshalResp rm htc']
    simp only [if_true]
    rw [decodeResponseMessage_marshal rm htc']
  | tool tm =>
    simp only [wfMsg, beq_iff_eq] at h
    simp only [marshalMsg, decodeRequestMessage, probeRole_marshalTool]
    rw [if_neg (by simp [h]), if_neg (by simp [h]), if_pos h,
      decodeToolMessage_marshal]

theorem mapME_messages (msgs : List Msg) (h : ∀ m ∈ msgs, wfMsg m = true) :
    mapME decodeRequestMessage (msgs.map marshalMsg) = .ok msgs := by
  induction msgs with
  | nil => rfl
  | cons hd tl ih =>
    simp only [List.map_cons, mapME]
    rw [msg_roundtrip hd (h hd (by simp)),
      ih (fun m hm => h m (by simp [hm]))]
    rfl

/-- The assistant `ChatMessage` replaying a tool request: its role is
assistant and its `tool_calls` is non-empty. -/
def c8msg : Msg := .chat ⟨"assistant", "", [⟨"t1", "function", ⟨"f", "\x7b\x7d"⟩⟩]⟩

/-- C8 (counterexample): a `ChatMessage` with role assistant and non-empty
`tool_calls` — well-formed by the claim's own hypothesis list — marshals
to `\x7brole: assistant, tool_calls: [...]\x7d` and decodes back as a
`ResponseMessage`: the variant is not preserved, so the round trip is not
the identity on the message list. -/
theorem c8_counterexample :
    decodeChatCompletionRequest
        (marshalChatCompletionRequest ⟨"test-model", [c8msg], false⟩)
      = .ok ⟨"test-model",
             [.response ⟨"assistant", none, [⟨"t1", "function", ⟨"f", "\x7b\x7d"⟩⟩], ""⟩],
             false⟩
    ∧ (Msg.response ⟨"assistant", none, [⟨"t1", "function", ⟨"f", "\x7b\x7d"⟩⟩], ""⟩
        ≠ c8msg) :=
  ⟨rfl, by decide⟩

/-- C8 (amended): for well-formed messages — `ChatMessage` with role in
\x7bsystem, user, assistant\x7d and empty `tool_calls` when the role is
assistant, `ResponseMessage` with role assistant and non-empty
`tool_calls`, `ToolMessage` with role tool — marshaling a request and
decoding the result restores the request, message list and concrete
variants included. -/
theorem c8_roundtrip (model : String) (stream : Bool) (msgs : List Msg)
    (h : ∀ m ∈ msgs, wfMsg m = true) :
    decodeChatCompletionRequest (marshalChatCompletionRequest ⟨model, msgs, stream⟩)
      = .ok ⟨model, msgs, stream⟩ := by
  cases stream <;>
    simp [marshalChatCompletionRequest, decodeChatCompletionRequest,
      decStringField, decBoolField, decodeMessagesField, Json.getField,
      Json.getLast, mapME_messages msgs h]

/-- C8 (witness): a three-turn conversation (user turn, assistant
tool-call turn, tool-result turn) round-trips unchanged. -/
theorem c8_witness :
    decodeChatCompletionRequest (marshalChatCompletionRequest
        ⟨"test-model",
         [.chat ⟨"user", "Call a tool.", []⟩,
          .response ⟨"assistant", none,
            [⟨"tool-123", "function", ⟨"get_weather", "\x7b\x7d"⟩⟩], ""⟩,
          .tool ⟨"tool", "20", "tool-123"⟩],
         false⟩)
      = .ok ⟨"test-model",
             [.chat ⟨"user", "Call a tool.", []⟩,
              .response ⟨"assistant", none,
                [⟨"tool-123", "function", ⟨"get_weather", "\x7b\x7d"⟩⟩], ""⟩,
              .tool ⟨"tool", "20", "tool-123"⟩],
             false⟩ :=
  c8_roundtrip "test-model" false _ (by decide)

end WorkersAI
